import Mathlib

/-!
# PyPay: formal model of the canonicalization / signing / verification core

A shallow embedding of the signing and verification core of the PyPay
repository (`pypay/alipay.py`, `pypay/wxpay.py`, `pypay/security.py`).

Python values that flow through the canonical parameter encoders are
modelled by the inductive type `PyObj`; Python dictionaries are modelled as
association lists `List (String × PyObj)` (unique keys by construction in
Python, expressed as a `Nodup` hypothesis where needed).  A Python `bytes`
object is represented by its UTF-8 decoding (every `bytes` the code
decodes is assumed valid UTF-8; an empty bytes object corresponds to the
empty string).  Library primitives that the repository only calls at an
interface boundary (RSA sign/verify, HMAC-SHA256 hexdigest, base64
decoding of signatures, the AES-ECB block cipher) are passed in as
explicit function parameters, exactly at the boundary where the source
calls into `Cryptodome`, `hmac`, and `base64`.

Python exceptions are modelled with `Except String`; the string names the
Python exception class that the corresponding operation raises.
-/

/-- A Python value, as used by the PyPay parameter dictionaries and by the
JSON documents the gateway returns: `str`, `bytes` (carried as its UTF-8
decoding), `int`, `bool`, `None`, `dict` (string keys, insertion ordered)
and `list`. -/
inductive PyObj where
  | str (s : String)
  | bytes (s : String)
  | int (n : Int)
  | bool (b : Bool)
  | none
  | dict (fields : List (String × PyObj))
  | list (elems : List PyObj)

/-- Python truthiness (`bool(v)`): empty string / empty bytes / `0` /
`False` / `None` / empty dict / empty list are falsy. -/
def pyTruthy : PyObj → Bool
  | .str s => ¬ s.isEmpty
  | .bytes s => ¬ s.isEmpty
  | .int n => n ≠ 0
  | .bool b => b
  | .none => false
  | .dict fields => ¬ fields.isEmpty
  | .list elems => ¬ elems.isEmpty

/-- One hexadecimal digit (lower case), for `\uXXXX` escapes. -/
def hexDigit (n : Nat) : Char :=
  if n < 10 then Char.ofNat (48 + n) else Char.ofNat (97 + (n - 10))

/-- Four-digit lower-case hexadecimal rendering of a code point. -/
def hex4 (n : Nat) : String :=
  String.mk [hexDigit (n / 4096 % 16), hexDigit (n / 256 % 16),
             hexDigit (n / 16 % 16), hexDigit (n % 16)]

/-- `json.dumps` escaping of a single character with the default
`ensure_ascii=True`: `"` and `\` get a backslash, the common control
characters use their short escapes, other control characters and all
non-ASCII code points become `\uXXXX` (a surrogate pair above `U+FFFF`). -/
def jsonEscapeChar (c : Char) : String :=
  if c = '"' then "\\\""
  else if c = '\\' then "\\\\"
  else if c = '\n' then "\\n"
  else if c = '\r' then "\\r"
  else if c = '\t' then "\\t"
  else if c = '\x08' then "\\b"
  else if c = '\x0c' then "\\f"
  else if c.toNat < 32 then "\\u" ++ hex4 c.toNat
  else if c.toNat < 127 then String.mk [c]
  else if c.toNat ≤ 65535 then "\\u" ++ hex4 c.toNat
  else
    let n := c.toNat - 65536
    "\\u" ++ hex4 (55296 + n / 1024) ++ "\\u" ++ hex4 (56320 + n % 1024)

/-- A JSON string literal for `s`, as `json.dumps` renders it. -/
def jsonQuote (s : String) : String :=
  "\"" ++ String.join (s.data.map jsonEscapeChar) ++ "\""

mutual

/-- `json.dumps(v, separators=(',', ':'))`: the compact JSON serialization
used by `AliPay._ordered_data` for nested dict values.  Dict key order is
preserved (Python preserves insertion order and `sort_keys` is not set).
A `bytes` value is not JSON serializable and raises `TypeError`. -/
def jsonDumps : PyObj → Except String String
  | .str s => .ok (jsonQuote s)
  | .bytes _ => .error "TypeError"
  | .int n => .ok (toString n)
  | .bool b => .ok (if b then "true" else "false")
  | .none => .ok "null"
  | .dict fields => do
      let body ← jsonDumpsFields fields
      .ok ("\x7b" ++ body ++ "\x7d")
  | .list elems => do
      let body ← jsonDumpsElems elems
      .ok ("[" ++ body ++ "]")

/-- The comma-separated field list of a JSON object (compact separators). -/
def jsonDumpsFields : List (String × PyObj) → Except String String
  | [] => .ok ""
  | [(k, v)] => do
      let s ← jsonDumps v
      .ok (jsonQuote k ++ ":" ++ s)
  | (k, v) :: rest => do
      let s ← jsonDumps v
      let r ← jsonDumpsFields rest
      .ok (jsonQuote k ++ ":" ++ s ++ "," ++ r)

/-- The comma-separated element list of a JSON array (compact separators). -/
def jsonDumpsElems : List PyObj → Except String String
  | [] => .ok ""
  | [v] => jsonDumps v
  | v :: rest => do
      let s ← jsonDumps v
      let r ← jsonDumpsElems rest
      .ok (s ++ "," ++ r)

end

/-- Python `repr` of a single character inside a string literal quoted by
`q`: backslash and the quote character get a backslash, `\n`/`\r`/`\t`
their short escapes, other ASCII control characters (and DEL) become
`\xHH`.  (Printable characters are kept literally; the model covers the
ASCII range faithfully, which is all the repository's data uses.) -/
def pyReprChar (q : Char) (c : Char) : String :=
  if c = '\\' then "\\\\"
  else if c = q then "\\" ++ String.mk [q]
  else if c = '\n' then "\\n"
  else if c = '\r' then "\\r"
  else if c = '\t' then "\\t"
  else if c.toNat < 32 ∨ c.toNat = 127 then
    "\\x" ++ String.mk [hexDigit (c.toNat / 16 % 16), hexDigit (c.toNat % 16)]
  else String.mk [c]

/-- Python `repr` of a `str`: single-quoted, unless the string contains a
single quote and no double quote, in which case it is double-quoted. -/
def pyStrRepr (s : String) : String :=
  let q : Char := if s.contains '\'' ∧ ¬ s.contains '"' then '"' else '\''
  String.mk [q] ++ String.join (s.data.map (pyReprChar q)) ++ String.mk [q]

mutual

/-- Python `repr` of a value (`repr(v)`), as used by `str.format` / f-strings
for non-`str` values: strings are quoted, `True`/`False`/`None` use their
Python spellings, dicts render as `{'k': v, ...}` and lists as `[a, b]`. -/
def pyRepr : PyObj → String
  | .str s => pyStrRepr s
  | .bytes s => "b" ++ pyStrRepr s
  | .int n => toString n
  | .bool b => if b then "True" else "False"
  | .none => "None"
  | .dict fields => "\x7b" ++ pyReprFields fields ++ "\x7d"
  | .list elems => "[" ++ pyReprElems elems ++ "]"

/-- The `', '`-separated `'key': value` list of a dict's `repr`. -/
def pyReprFields : List (String × PyObj) → String
  | [] => ""
  | [(k, v)] => pyStrRepr k ++ ": " ++ pyRepr v
  | (k, v) :: rest => pyStrRepr k ++ ": " ++ pyRepr v ++ ", " ++ pyReprFields rest

/-- The `', '`-separated element list of a list's `repr`. -/
def pyReprElems : List PyObj → String
  | [] => ""
  | [v] => pyRepr v
  | v :: rest => pyRepr v ++ ", " ++ pyReprElems rest

end

/-- Python `str(v)`, as applied by `"{}={}".format(k, v)` and f-strings:
a `str` stays itself, every other value renders via `repr`-style printing
(`str` and `repr` agree on ints, bools, `None`, dicts and lists). -/
def pyStr : PyObj → String
  | .str s => s
  | v => pyRepr v

/-! ## Python dictionaries as association lists -/

/-- First-match lookup in an association list: the model of `d[k]` /
`d.get(k)` on a Python dict (which holds each key at most once). -/
def pyLookup : List (String × PyObj) → String → Option PyObj
  | [], _ => Option.none
  | kv :: rest, k => if kv.1 = k then some kv.2 else pyLookup rest k

/-- `d.get(k, None)`: lookup with Python's `None` as the default. -/
def pyGetD (d : List (String × PyObj)) (k : String) : PyObj :=
  (pyLookup d k).getD .none

/-- `d.pop(k, None)`: returns the removed value (or `None` when the key is
absent) together with the dictionary after the removal. -/
def pyPop : List (String × PyObj) → String → PyObj × List (String × PyObj)
  | [], _ => (.none, [])
  | kv :: rest, k =>
    if kv.1 = k then (kv.2, rest)
    else ((pyPop rest k).1, kv :: (pyPop rest k).2)

/-- Lexicographic comparison of character lists by code point: the model
of Python `a <= b` on strings (UTF-8 byte order coincides with code-point
order). -/
def charListLe : List Char → List Char → Bool
  | [], _ => true
  | _ :: _, [] => false
  | a :: as, b :: bs => if a < b then true else if b < a then false else charListLe as bs

/-- Python `a <= b` on strings. -/
def strLeB (a b : String) : Bool := charListLe a.data b.data

/-- `sorted(data.keys())`: Python sorts strings lexicographically by code
point.  Modelled with insertion sort under `strLeB` (keys are unique, so
any correct sort produces the same list as Python's stable sort). -/
def sortKeys (ks : List String) : List String :=
  List.insertionSort (fun a b => strLeB a b = true) ks

/-! ## The canonical parameter encoders (`_ordered_data`) -/

/-- One iteration of the loop body of `AliPay._ordered_data` for key `k`
with value `v = data.get(k, None)`: bytes are decoded to text, dicts are
serialized to compact JSON (which can raise `TypeError`), any other truthy
value is kept as is, and falsy values are skipped.  (The source's
`isinstance`/`elif value` chain is spelled out per constructor; the last
five cases are all instances of the `elif value` / `else continue` arms.) -/
def aliNormOne (k : String) : PyObj → Except String (Option (String × PyObj))
  | .bytes s => .ok (some (k, .str s))
  | .dict fields =>
    match jsonDumps (.dict fields) with
    | .error e => .error e
    | .ok j => .ok (some (k, .str j))
  | .str s => .ok (if pyTruthy (.str s) then some (k, .str s) else Option.none)
  | .int n => .ok (if pyTruthy (.int n) then some (k, .int n) else Option.none)
  | .bool b => .ok (if pyTruthy (.bool b) then some (k, .bool b) else Option.none)
  | .none => .ok Option.none
  | .list elems => .ok (if pyTruthy (.list elems) then some (k, .list elems) else Option.none)

/-- The loop of `AliPay._ordered_data` over an already-sorted key list. -/
def aliOrderedGo (d : List (String × PyObj)) : List String → Except String (List (String × PyObj))
  | [] => .ok []
  | k :: ks =>
    match aliNormOne k (pyGetD d k), aliOrderedGo d ks with
    | .error e, _ => .error e
    | .ok _, .error e => .error e
    | .ok head?, .ok tail =>
      .ok (match head? with | some kv => kv :: tail | Option.none => tail)

/-- `AliPay._ordered_data(data)`: iterate over the keys in sorted order,
normalizing each value (see `aliNormOne`). -/
def aliOrderedData (d : List (String × PyObj)) : Except String (List (String × PyObj)) :=
  aliOrderedGo d (sortKeys (d.map Prod.fst))

/-- One iteration of the loop body of `WxPay._ordered_data`: bytes are
decoded to text, other truthy values kept, falsy values skipped (there is
no dict-to-JSON branch in the WxPay variant; cases spelled out per
constructor as in `aliNormOne`). -/
def wxNormOne (k : String) : PyObj → Option (String × PyObj)
  | .bytes s => some (k, .str s)
  | .str s => if pyTruthy (.str s) then some (k, .str s) else Option.none
  | .int n => if pyTruthy (.int n) then some (k, .int n) else Option.none
  | .bool b => if pyTruthy (.bool b) then some (k, .bool b) else Option.none
  | .none => Option.none
  | .dict fields => if pyTruthy (.dict fields) then some (k, .dict fields) else Option.none
  | .list elems => if pyTruthy (.list elems) then some (k, .list elems) else Option.none

/-- `WxPay._ordered_data(data)`. -/
def wxOrderedData (d : List (String × PyObj)) : List (String × PyObj) :=
  (sortKeys (d.map Prod.fst)).filterMap (fun k => wxNormOne k (pyGetD d k))

/-- `"&".join("{}={}".format(k, v) for k, v in items)`: the canonical
string built from an ordered pair sequence. -/
def canonJoin (items : List (String × PyObj)) : String :=
  String.intercalate "&" (items.map fun kv => kv.1 ++ "=" ++ pyStr kv.2)

example : wxOrderedData [("b", .str "2"), ("a", .str "1"), ("c", .str "")]
    = [("a", .str "1"), ("b", .str "2")] := by rfl
example : aliOrderedData [("a", .dict [])] = .ok [("a", .str "\x7b\x7d")] := by rfl
example : aliOrderedData [("z", .dict [("b", .int 1), ("a", .str "x")])]
    = .ok [("z", .str "\x7b\"b\":1,\"a\":\"x\"\x7d")] := by rfl
example : canonJoin [("a", .str "1"), ("b", .int 2)] = "a=1&b=2" := by rfl

/-! ## Key ordering lemmas -/

theorem charListLe_total (as bs : List Char) :
    charListLe as bs = true ∨ charListLe bs as = true := by
  induction as generalizing bs with
  | nil => exact Or.inl rfl
  | cons a as ih =>
    cases bs with
    | nil => exact Or.inr rfl
    | cons b bs =>
      rcases lt_trichotomy a b with h | h | h
      · exact Or.inl (by simp [charListLe, h])
      · subst h
        rcases ih bs with h | h
        · exact Or.inl (by simp [charListLe, h])
        · exact Or.inr (by simp [charListLe, h])
      · exact Or.inr (by simp [charListLe, h])

theorem charListLe_trans {as bs cs : List Char}
    (h₁ : charListLe as bs = true) (h₂ : charListLe bs cs = true) :
    charListLe as cs = true := by
  induction as generalizing bs cs with
  | nil => rfl
  | cons a as ih =>
    cases bs with
    | nil => simp [charListLe] at h₁
    | cons b bs =>
      cases cs with
      | nil => simp [charListLe] at h₂
      | cons c cs =>
        rw [charListLe] at h₁ h₂ ⊢
        by_cases hab : a < b
        · have hbc : ¬ c < b := by
            intro hcb
            rw [if_neg (asymm hcb), if_pos hcb] at h₂
            exact Bool.false_ne_true h₂
          have hac : a < c := lt_of_lt_of_le hab (not_lt.mp hbc)
          rw [if_pos hac]
        · rw [if_neg hab] at h₁
          by_cases hba : b < a
          · rw [if_pos hba] at h₁
            exact absurd h₁ Bool.false_ne_true
          · have hab' : a = b := le_antisymm (not_lt.mp hba) (not_lt.mp hab)
            subst hab'
            rw [if_neg hba] at h₁
            by_cases hac : a < c
            · rw [if_pos hac]
            · rw [if_neg hac] at h₂ ⊢
              by_cases hca : c < a
              · rw [if_pos hca] at h₂
                exact absurd h₂ Bool.false_ne_true
              · rw [if_neg hca] at h₂ ⊢
                exact ih h₁ h₂

theorem charListLe_antisymm {as bs : List Char}
    (h₁ : charListLe as bs = true) (h₂ : charListLe bs as = true) : as = bs := by
  induction as generalizing bs with
  | nil =>
    cases bs with
    | nil => rfl
    | cons b bs => simp [charListLe] at h₂
  | cons a as ih =>
    cases bs with
    | nil => simp [charListLe] at h₁
    | cons b bs =>
      rw [charListLe] at h₁ h₂
      by_cases hab : a < b
      · rw [if_neg (asymm hab), if_pos hab] at h₂
        exact absurd h₂ Bool.false_ne_true
      · rw [if_neg hab] at h₁
        by_cases hba : b < a
        · rw [if_pos hba] at h₁
          exact absurd h₁ Bool.false_ne_true
        · rw [if_neg hba] at h₁
          rw [if_neg hba, if_neg hab] at h₂
          have : a = b := le_antisymm (not_lt.mp hba) (not_lt.mp hab)
          rw [this, ih h₁ h₂]

instance : IsTotal String (fun a b => strLeB a b = true) :=
  ⟨fun a b => charListLe_total a.data b.data⟩

instance : IsTrans String (fun a b => strLeB a b = true) :=
  ⟨fun _ _ _ hab hbc => charListLe_trans hab hbc⟩

instance : IsAntisymm String (fun a b => strLeB a b = true) :=
  ⟨fun a b hab hba => by
    cases a
    cases b
    exact congrArg String.mk (charListLe_antisymm hab hba)⟩

theorem sortKeys_perm (ks : List String) : (sortKeys ks).Perm ks :=
  List.perm_insertionSort _ ks

theorem sortKeys_sorted (ks : List String) :
    (sortKeys ks).Sorted (fun a b => strLeB a b = true) :=
  List.sorted_insertionSort _ ks

/-- Two lists with the same elements (as multisets) have the same sorted
form: the heart of insertion-order independence. -/
theorem sortKeys_eq_of_perm {ks₁ ks₂ : List String} (h : ks₁.Perm ks₂) :
    sortKeys ks₁ = sortKeys ks₂ :=
  List.eq_of_perm_of_sorted
    ((sortKeys_perm ks₁).trans (h.trans (sortKeys_perm ks₂).symm))
    (sortKeys_sorted ks₁) (sortKeys_sorted ks₂)

/-! ## Lookup lemmas -/

theorem pyLookup_mem {d : List (String × PyObj)} {k : String} {v : PyObj}
    (h : pyLookup d k = some v) : (k, v) ∈ d := by
  induction d with
  | nil => simp [pyLookup] at h
  | cons kv rest ih =>
    rw [pyLookup] at h
    by_cases hk : kv.1 = k
    · simp only [hk, if_pos rfl] at h
      cases h
      rw [← hk]
      exact List.mem_cons_self _ _
    · rw [if_neg hk] at h
      exact List.mem_cons_of_mem _ (ih h)

theorem pyLookup_eq_some_of_mem {d : List (String × PyObj)} {k : String} {v : PyObj}
    (hn : (d.map Prod.fst).Nodup) (h : (k, v) ∈ d) : pyLookup d k = some v := by
  induction d with
  | nil => simp at h
  | cons kv rest ih =>
    rw [List.map_cons, List.nodup_cons] at hn
    rcases List.mem_cons.mp h with h | h
    · subst h
      simp [pyLookup]
    · have hne : kv.1 ≠ k := by
        intro he
        exact hn.1 (he ▸ (List.mem_map.mpr ⟨(k, v), h, rfl⟩))
      rw [pyLookup, if_neg hne]
      exact ih hn.2 h

/-- Permuting a dictionary with unique keys does not change any lookup. -/
theorem pyLookup_eq_of_perm {d₁ d₂ : List (String × PyObj)}
    (hp : d₁.Perm d₂) (hn : (d₁.map Prod.fst).Nodup) (k : String) :
    pyLookup d₁ k = pyLookup d₂ k := by
  have hn₂ : (d₂.map Prod.fst).Nodup := ((hp.map Prod.fst).nodup_iff).mp hn
  cases h₁ : pyLookup d₁ k with
  | some v => exact (pyLookup_eq_some_of_mem hn₂ (hp.mem_iff.mp (pyLookup_mem h₁))).symm
  | none =>
    cases h₂ : pyLookup d₂ k with
    | none => rfl
    | some v =>
      have := pyLookup_eq_some_of_mem hn (hp.mem_iff.mpr (pyLookup_mem h₂))
      rw [h₁] at this
      cases this

theorem pyGetD_eq_of_perm {d₁ d₂ : List (String × PyObj)}
    (hp : d₁.Perm d₂) (hn : (d₁.map Prod.fst).Nodup) (k : String) :
    pyGetD d₁ k = pyGetD d₂ k := by
  rw [pyGetD, pyGetD, pyLookup_eq_of_perm hp hn k]

/-! ## Claim C1: determinism and insertion-order independence -/

theorem aliNormOne_key {k : String} {v : PyObj} {kv : String × PyObj}
    (h : aliNormOne k v = .ok (some kv)) : kv.1 = k := by
  cases v with
  | bytes s => cases h; rfl
  | dict fields =>
    rw [aliNormOne] at h
    cases hj : jsonDumps (.dict fields) with
    | error e => rw [hj] at h; cases h
    | ok j => rw [hj] at h; cases h; rfl
  | str s =>
    rw [aliNormOne] at h
    split at h
    · cases h; rfl
    · cases h
  | int n =>
    rw [aliNormOne] at h
    split at h
    · cases h; rfl
    · cases h
  | bool b =>
    rw [aliNormOne] at h
    split at h
    · cases h; rfl
    · cases h
  | none => cases h
  | list elems =>
    rw [aliNormOne] at h
    split at h
    · cases h; rfl
    · cases h

theorem aliOrderedGo_congr {d₁ d₂ : List (String × PyObj)}
    (h : ∀ k, pyGetD d₁ k = pyGetD d₂ k) (ks : List String) :
    aliOrderedGo d₁ ks = aliOrderedGo d₂ ks := by
  induction ks with
  | nil => rfl
  | cons k ks ih => rw [aliOrderedGo, aliOrderedGo, h k, ih]

/-- Keys of the encoder output form a sublist of the key list it walked. -/
theorem aliOrderedGo_keys_sublist {d : List (String × PyObj)} {ks : List String}
    {l : List (String × PyObj)} (h : aliOrderedGo d ks = .ok l) :
    (l.map Prod.fst).Sublist ks := by
  induction ks generalizing l with
  | nil => cases h; exact List.Sublist.refl []
  | cons k ks ih =>
    rw [aliOrderedGo] at h
    cases hh : aliNormOne k (pyGetD d k) with
    | error e => rw [hh] at h; cases h
    | ok head? =>
      rw [hh] at h
      cases ht : aliOrderedGo d ks with
      | error e => rw [ht] at h; cases h
      | ok tail =>
        rw [ht] at h
        cases head? with
        | none =>
          cases h
          exact (ih ht).cons k
        | some kv =>
          cases h
          rw [List.map_cons, aliNormOne_key hh]
          exact (ih ht).cons₂ k

theorem wxOrderedData_keys_sublist (d : List (String × PyObj)) :
    ((wxOrderedData d).map Prod.fst).Sublist (sortKeys (d.map Prod.fst)) := by
  rw [wxOrderedData]
  generalize sortKeys (d.map Prod.fst) = ks
  induction ks with
  | nil => exact List.Sublist.refl []
  | cons k ks ih =>
    rw [List.filterMap_cons]
    cases hh : wxNormOne k (pyGetD d k) with
    | none => exact ih.cons k
    | some kv =>
      have hk : kv.1 = k := by
        cases hv : pyGetD d k with
        | bytes s => rw [hv] at hh; cases hh; rfl
        | str s => rw [hv, wxNormOne] at hh; split at hh; { cases hh; rfl }; { cases hh }
        | int n => rw [hv, wxNormOne] at hh; split at hh; { cases hh; rfl }; { cases hh }
        | bool b => rw [hv, wxNormOne] at hh; split at hh; { cases hh; rfl }; { cases hh }
        | none => rw [hv] at hh; cases hh
        | dict fields => rw [hv, wxNormOne] at hh; split at hh; { cases hh; rfl }; { cases hh }
        | list elems => rw [hv, wxNormOne] at hh; split at hh; { cases hh; rfl }; { cases hh }
      rw [List.map_cons, hk]
      exact ih.cons₂ k

/-- The strict ascending-key ordering of the canonical pair sequence. -/
def keyStrictSorted (l : List (String × PyObj)) : Prop :=
  (l.map Prod.fst).Pairwise (fun a b => strLeB a b = true ∧ a ≠ b)

theorem sortKeys_pairwise_strict {ks : List String} (hn : ks.Nodup) :
    (sortKeys ks).Pairwise (fun a b => strLeB a b = true ∧ a ≠ b) := by
  have hs : (sortKeys ks).Pairwise (fun a b => strLeB a b = true) := sortKeys_sorted ks
  have hnd : (sortKeys ks).Pairwise (· ≠ ·) := ((sortKeys_perm ks).nodup_iff).mpr hn
  exact hs.and hnd

/-- **C1.** Canonicalization is deterministic and insertion-order
independent.  The embedded encoders are pure functions, so canonicalizing
the same mapping twice yields character-for-character identical results by
reflexivity; the substantive content proved here is that any two mappings
with the same key-to-value associations (a permutation of each other, keys
unique as in a Python dict) yield the same ordered pair sequence under
both `AliPay._ordered_data` and `WxPay._ordered_data` — including equal
`TypeError` outcomes for unserializable nested values — and that the
resulting pair sequence is sorted strictly ascending by code-point (=
UTF-8 byte) order of the key. -/
theorem canonicalization_order_independent
    (d₁ d₂ : List (String × PyObj)) (hp : d₁.Perm d₂)
    (hn : (d₁.map Prod.fst).Nodup) :
    aliOrderedData d₁ = aliOrderedData d₂ ∧
    wxOrderedData d₁ = wxOrderedData d₂ ∧
    (∀ l, aliOrderedData d₁ = .ok l → keyStrictSorted l) ∧
    keyStrictSorted (wxOrderedData d₁) := by
  have hget : ∀ k, pyGetD d₁ k = pyGetD d₂ k := pyGetD_eq_of_perm hp hn
  have hkeys : sortKeys (d₁.map Prod.fst) = sortKeys (d₂.map Prod.fst) :=
    sortKeys_eq_of_perm (hp.map Prod.fst)
  refine ⟨?_, ?_, ?_, ?_⟩
  · rw [aliOrderedData, aliOrderedData, ← hkeys]
    exact aliOrderedGo_congr hget _
  · rw [wxOrderedData, wxOrderedData, ← hkeys]
    have hfun : (fun k => wxNormOne k (pyGetD d₁ k)) = (fun k => wxNormOne k (pyGetD d₂ k)) :=
      funext fun k => by rw [hget k]
    rw [hfun]
  · intro l hl
    rw [aliOrderedData] at hl
    exact (sortKeys_pairwise_strict hn).sublist (aliOrderedGo_keys_sublist hl)
  · exact (sortKeys_pairwise_strict hn).sublist (wxOrderedData_keys_sublist d₁)

/-- Witness for C1 at a concrete pair of mappings that differ only in
insertion order. -/
theorem canonicalization_order_independent_witness :
    aliOrderedData [("b", PyObj.str "y"), ("a", PyObj.str "x")]
      = aliOrderedData [("a", PyObj.str "x"), ("b", PyObj.str "y")] ∧
    wxOrderedData [("b", PyObj.str "y"), ("a", PyObj.str "x")]
      = wxOrderedData [("a", PyObj.str "x"), ("b", PyObj.str "y")] ∧
    (∀ l, aliOrderedData [("b", PyObj.str "y"), ("a", PyObj.str "x")] = .ok l →
      keyStrictSorted l) ∧
    keyStrictSorted (wxOrderedData [("b", PyObj.str "y"), ("a", PyObj.str "x")]) :=
  canonicalization_order_independent _ _ (List.Perm.swap _ _ _) (by decide)

/-! ## Claim C2: which fields are emitted -/

/-- Whether `AliPay._ordered_data` emits a field with value `v`: bytes and
dict values are always emitted (bytes decoded, dicts JSON-serialized,
*even when empty*); the rest iff truthy. -/
def aliEmits : PyObj → Bool
  | .bytes _ => true
  | .dict _ => true
  | .str s => pyTruthy (.str s)
  | .int n => pyTruthy (.int n)
  | .bool b => pyTruthy (.bool b)
  | .none => false
  | .list elems => pyTruthy (.list elems)

/-- Whether `WxPay._ordered_data` emits a field with value `v`: bytes
always (even empty); the rest iff truthy. -/
def wxEmits : PyObj → Bool
  | .bytes _ => true
  | .str s => pyTruthy (.str s)
  | .int n => pyTruthy (.int n)
  | .bool b => pyTruthy (.bool b)
  | .none => false
  | .dict fields => pyTruthy (.dict fields)
  | .list elems => pyTruthy (.list elems)

theorem aliNormOne_isSome {k : String} {v : PyObj} {r : Option (String × PyObj)}
    (h : aliNormOne k v = .ok r) : r.isSome = aliEmits v := by
  cases v with
  | bytes s => cases h; rfl
  | dict fields =>
    rw [aliNormOne] at h
    cases hj : jsonDumps (.dict fields) with
    | error e => rw [hj] at h; cases h
    | ok j => rw [hj] at h; cases h; rfl
  | str s =>
    rw [aliNormOne] at h
    cases h
    rw [aliEmits]
    split <;> simp_all
  | int n =>
    rw [aliNormOne] at h
    cases h
    rw [aliEmits]
    split <;> simp_all
  | bool b =>
    rw [aliNormOne] at h
    cases h
    rw [aliEmits]
    split <;> simp_all
  | none => cases h; rfl
  | list elems =>
    rw [aliNormOne] at h
    cases h
    rw [aliEmits]
    split <;> simp_all

theorem wxNormOne_isSome (k : String) (v : PyObj) :
    (wxNormOne k v).isSome = wxEmits v := by
  cases v with
  | bytes s => rfl
  | str s => rw [wxNormOne, wxEmits]; split <;> simp_all
  | int n => rw [wxNormOne, wxEmits]; split <;> simp_all
  | bool b => rw [wxNormOne, wxEmits]; split <;> simp_all
  | none => rfl
  | dict fields => rw [wxNormOne, wxEmits]; split <;> simp_all
  | list elems => rw [wxNormOne, wxEmits]; split <;> simp_all

/-- Occurrence count of key `k` in the AliPay encoder's output, in terms
of its count in the walked key list. -/
theorem aliOrderedGo_count {d : List (String × PyObj)} {ks : List String}
    {l : List (String × PyObj)} (h : aliOrderedGo d ks = .ok l) (k : String) :
    (l.map Prod.fst).count k
      = if aliEmits (pyGetD d k) then ks.count k else 0 := by
  induction ks generalizing l with
  | nil =>
    cases h
    simp
  | cons k' ks ih =>
    rw [aliOrderedGo] at h
    cases hh : aliNormOne k' (pyGetD d k') with
    | error e => rw [hh] at h; cases h
    | ok head? =>
      rw [hh] at h
      cases ht : aliOrderedGo d ks with
      | error e => rw [ht] at h; cases h
      | ok tail =>
        rw [ht] at h
        by_cases hk : k' = k
        · subst hk
          cases head? with
          | none =>
            cases h
            have hem : aliEmits (pyGetD d k') = false := by
              have := aliNormOne_isSome hh
              simpa using this.symm
            simp [ih ht, hem]
          | some kv =>
            cases h
            have hem : aliEmits (pyGetD d k') = true := by
              have := aliNormOne_isSome hh
              simpa using this.symm
            rw [List.map_cons, aliNormOne_key hh]
            simp [List.count_cons, ih ht, hem]
        · cases head? with
          | none =>
            cases h
            simp only [ih ht, List.count_cons, beq_iff_eq, if_neg hk, Nat.add_zero]
          | some kv =>
            cases h
            rw [List.map_cons, aliNormOne_key hh]
            simp only [ih ht, List.count_cons, beq_iff_eq, if_neg hk, Nat.add_zero]

/-- Occurrence count of key `k` in the WxPay encoder's output. -/
theorem wxOrderedData_count_keys (d : List (String × PyObj)) (ks : List String) (k : String) :
    ((ks.filterMap (fun k' => wxNormOne k' (pyGetD d k'))).map Prod.fst).count k
      = if wxEmits (pyGetD d k) then ks.count k else 0 := by
  induction ks with
  | nil => simp
  | cons k' ks ih =>
    rw [List.filterMap_cons]
    by_cases hk : k' = k
    · subst hk
      cases hh : wxNormOne k' (pyGetD d k') with
      | none =>
        have hem : wxEmits (pyGetD d k') = false := by
          have := wxNormOne_isSome k' (pyGetD d k')
          rw [hh] at this
          simpa using this.symm
        simp [ih, hem]
      | some kv =>
        have hem : wxEmits (pyGetD d k') = true := by
          have := wxNormOne_isSome k' (pyGetD d k')
          rw [hh] at this
          simpa using this.symm
        have hkey : kv.1 = k' := by
          cases hv : pyGetD d k' with
          | bytes s => rw [hv] at hh; cases hh; rfl
          | str s => rw [hv, wxNormOne] at hh; split at hh; { cases hh; rfl }; { cases hh }
          | int n => rw [hv, wxNormOne] at hh; split at hh; { cases hh; rfl }; { cases hh }
          | bool b => rw [hv, wxNormOne] at hh; split at hh; { cases hh; rfl }; { cases hh }
          | none => rw [hv] at hh; cases hh
          | dict fields => rw [hv, wxNormOne] at hh; split at hh; { cases hh; rfl }; { cases hh }
          | list elems => rw [hv, wxNormOne] at hh; split at hh; { cases hh; rfl }; { cases hh }
        rw [List.map_cons, hkey]
        simp [List.count_cons, ih, hem]
    · cases hh : wxNormOne k' (pyGetD d k') with
      | none =>
        simp only [ih, List.count_cons, beq_iff_eq, if_neg hk, Nat.add_zero]
      | some kv =>
        have hkey : kv.1 = k' := by
          cases hv : pyGetD d k' with
          | bytes s => rw [hv] at hh; cases hh; rfl
          | str s => rw [hv, wxNormOne] at hh; split at hh; { cases hh; rfl }; { cases hh }
          | int n => rw [hv, wxNormOne] at hh; split at hh; { cases hh; rfl }; { cases hh }
          | bool b => rw [hv, wxNormOne] at hh; split at hh; { cases hh; rfl }; { cases hh }
          | none => rw [hv] at hh; cases hh
          | dict fields => rw [hv, wxNormOne] at hh; split at hh; { cases hh; rfl }; { cases hh }
          | list elems => rw [hv, wxNormOne] at hh; split at hh; { cases hh; rfl }; { cases hh }
        rw [List.map_cons, hkey]
        simp only [ih, List.count_cons, beq_iff_eq, if_neg hk, Nat.add_zero]

theorem pyLookup_eq_none_of_not_mem {d : List (String × PyObj)} {k : String}
    (h : k ∉ d.map Prod.fst) : pyLookup d k = Option.none := by
  induction d with
  | nil => rfl
  | cons kv rest ih =>
    rw [List.map_cons, List.mem_cons, not_or] at h
    rw [pyLookup, if_neg (fun he => h.1 he.symm)]
    exact ih h.2

/-- If the AliPay encoder emits key `k`, the key is present in the dict. -/
theorem mem_of_aliEmits {d : List (String × PyObj)} {k : String}
    (h : aliEmits (pyGetD d k) = true) : k ∈ d.map Prod.fst := by
  by_contra hm
  rw [pyGetD, pyLookup_eq_none_of_not_mem hm] at h
  cases h

theorem mem_of_wxEmits {d : List (String × PyObj)} {k : String}
    (h : wxEmits (pyGetD d k) = true) : k ∈ d.map Prod.fst := by
  by_contra hm
  rw [pyGetD, pyLookup_eq_none_of_not_mem hm] at h
  cases h

/-- **C2 (counterexample).** The claim "a field whose value is the empty
string, zero, None/absent, or an *empty collection* never appears in the
canonical string" is false: an empty dict `{}` is a falsy empty collection,
yet `AliPay._ordered_data` emits it (the `isinstance(value, dict)` branch
precedes the truthiness test), as `("a", "{}")` here.  (Likewise an empty
`bytes` value is emitted as `("a", "")` by both encoders.) -/
theorem falsy_field_exclusion_counterexample :
    pyTruthy (PyObj.dict []) = false ∧
    aliOrderedData [("a", PyObj.dict [])] = .ok [("a", PyObj.str "\x7b\x7d")] :=
  ⟨rfl, rfl⟩

/-- **C2 (amended).** For every parameter mapping (unique keys): a field
is emitted by `AliPay._ordered_data` exactly once iff its value is bytes,
a dict (even empty — serialized to compact JSON), or truthy, and by
`WxPay._ordered_data` exactly once iff its value is bytes (even empty) or
truthy; every other field — empty string, zero, `False`, `None`, absent,
empty list, and for WxPay also empty dict — never appears.  Stated as an
occurrence count over the output keys (`pyGetD d k` is the field's value,
`.none` when absent). -/
theorem falsy_field_exclusion_amended (d : List (String × PyObj))
    (hn : (d.map Prod.fst).Nodup) (k : String) :
    (∀ l, aliOrderedData d = .ok l →
      (l.map Prod.fst).count k = if aliEmits (pyGetD d k) then 1 else 0) ∧
    ((wxOrderedData d).map Prod.fst).count k
      = if wxEmits (pyGetD d k) then 1 else 0 := by
  constructor
  · intro l hl
    rw [aliOrderedData] at hl
    rw [aliOrderedGo_count hl k]
    by_cases h : aliEmits (pyGetD d k) = true
    · rw [if_pos h, if_pos h, (sortKeys_perm _).count_eq]
      exact List.count_eq_one_of_mem hn (mem_of_aliEmits h)
    · rw [if_neg h, if_neg h]
  · rw [wxOrderedData, wxOrderedData_count_keys d _ k]
    by_cases h : wxEmits (pyGetD d k) = true
    · rw [if_pos h, if_pos h, (sortKeys_perm _).count_eq]
      exact List.count_eq_one_of_mem hn (mem_of_wxEmits h)
    · rw [if_neg h, if_neg h]

/-- Witness for the amended C2 at a concrete mapping: the truthy field
`"a"` appears exactly once, and (taking `k := "b"`, value `""`) a falsy
field would count zero. -/
theorem falsy_field_exclusion_amended_witness :
    (∀ l, aliOrderedData [("a", PyObj.str "x"), ("b", PyObj.str "")] = .ok l →
      (l.map Prod.fst).count "a"
        = if aliEmits (pyGetD [("a", PyObj.str "x"), ("b", PyObj.str "")] "a") then 1 else 0) ∧
    ((wxOrderedData [("a", PyObj.str "x"), ("b", PyObj.str "")]).map Prod.fst).count "a"
      = if wxEmits (pyGetD [("a", PyObj.str "x"), ("b", PyObj.str "")] "a") then 1 else 0 :=
  falsy_field_exclusion_amended _ (by decide) "a"

/-! ## Claim C3: brace-balanced extraction (`_get_string_to_be_signed`) -/

/-- Helper for Python `str.find`: the least index `≥ i` (counting from the
current suffix) where `sub` occurs as a prefix. -/
def strFindAux (sub : List Char) : List Char → Nat → Option Nat
  | [], i => if sub.isPrefixOf ([] : List Char) then some i else Option.none
  | c :: t, i => if sub.isPrefixOf (c :: t) then some i else strFindAux sub t (i + 1)

/-- Python `s.find(sub, start)`: `-1` when absent; a negative `start`
counts from the end of the string (clamped at zero). -/
def strFind (s sub : List Char) (start : Int) : Int :=
  let eff : Nat := if start < 0 then ((s.length : Int) + start).toNat else start.toNat
  if s.length < eff then -1
  else match strFindAux sub (s.drop eff) eff with
    | some i => (i : Int)
    | Option.none => -1

/-- Python slice `s[a:b]` (negative indices count from the end, both ends
clamped to the string). -/
def pySlice (s : List Char) (a b : Int) : List Char :=
  let n := s.length
  let norm : Int → Nat := fun i => if i < 0 then ((n : Int) + i).toNat else min i.toNat n
  (s.take (norm b)).drop (norm a)

/-- The scanning loop of `_get_string_to_be_signed`: walking the
characters from index `idx` with running balance `bal`, a `{` increments
the balance, a `}` at balance zero ends the scan at `index + 1` (the
`break`), any other `}` decrements.  `none` models falling off the end of
the string without the `break` firing. -/
def scanEnd : List Char → Nat → Nat → Option Nat
  | [], _, _ => Option.none
  | c :: rest, idx, bal =>
    if c = '\x7b' then scanEnd rest (idx + 1) (bal + 1)
    else if c = '\x7d' then
      if bal = 0 then some (idx + 1) else scanEnd rest (idx + 1) (bal - 1)
    else scanEnd rest (idx + 1) bal

/-- `AliPay._get_string_to_be_signed(raw_string, response_type)`:
`start = end = raw_string.find("{", raw_string.find(response_type))`, scan
from `start + 1` keeping a brace balance, set `end` past the first `}`
seen at balance zero, and return `raw_string[start:end]`. -/
def getStringToBeSigned (raw responseType : List Char) : List Char :=
  let start : Int := strFind raw ['\x7b'] (strFind raw responseType 0)
  let scanStart : Nat := (start + 1).toNat
  let endIdx : Int :=
    match scanEnd (raw.drop scanStart) scanStart 0 with
    | some e => (e : Int)
    | Option.none => start
  pySlice raw start endIdx

/-- String-level wrapper of `getStringToBeSigned`. -/
def getStringToBeSignedS (raw responseType : String) : String :=
  String.mk (getStringToBeSigned raw.data responseType.data)

/-- A balanced brace segment: scanning `cs` from balance `bal` never hits
a `}` while the balance is zero, and ends with balance zero (so the next
`}` after `cs` is the one the scan stops at). -/
def noEarlyClose : List Char → Nat → Bool
  | [], bal => bal == 0
  | c :: t, bal =>
    if c = '\x7b' then noEarlyClose t (bal + 1)
    else if c = '\x7d' then bal != 0 && noEarlyClose t (bal - 1)
    else noEarlyClose t bal

/-- The scan runs through a balanced segment without breaking and stops
exactly at the `}` that follows it: nested braces never terminate the scan
early. -/
theorem scanEnd_append {cs : List Char} {bal : Nat} (h : noEarlyClose cs bal = true)
    (idx : Nat) (rest : List Char) :
    scanEnd (cs ++ '\x7d' :: rest) idx bal = some (idx + cs.length + 1) := by
  induction cs generalizing idx bal with
  | nil =>
    rw [noEarlyClose, beq_iff_eq] at h
    subst h
    rw [List.nil_append, scanEnd, if_neg (by decide), if_pos rfl, if_pos rfl]
    rfl
  | cons c t ih =>
    rw [noEarlyClose] at h
    rw [List.cons_append, scanEnd]
    by_cases hc : c = '\x7b'
    · rw [if_pos hc] at h ⊢
      rw [ih h]
      simp only [List.length_cons]
      congr 1
      omega
    · rw [if_neg hc] at h ⊢
      by_cases hc' : c = '\x7d'
      · rw [if_pos hc'] at h ⊢
        rw [Bool.and_eq_true, bne_iff_ne, ne_eq] at h
        rw [if_neg h.1, ih h.2]
        simp only [List.length_cons]
        congr 1
        omega
      · rw [if_neg hc'] at h ⊢
        rw [ih h]
        simp only [List.length_cons]
        congr 1
        omega

theorem pySlice_extract (A B C : List Char) :
    pySlice (A ++ B ++ C) ((A.length : Nat) : Int) (((A.length + B.length : Nat)) : Int) = B := by
  rw [pySlice]
  have hn : (A ++ B ++ C).length = A.length + B.length + C.length := by
    simp
    omega
  have h1 : ¬ ((A.length : Nat) : Int) < 0 := by omega
  have h2 : ¬ (((A.length + B.length : Nat)) : Int) < 0 := by omega
  simp only [if_neg h1, if_neg h2, Int.toNat_ofNat]
  have hmin1 : min A.length (A ++ B ++ C).length = A.length := by
    rw [hn]; omega
  have hmin2 : min (A.length + B.length) (A ++ B ++ C).length = A.length + B.length := by
    rw [hn]; omega
  rw [hmin1, hmin2]
  have htake : (A ++ B ++ C).take (A.length + B.length) = A ++ B := by
    have : A.length + B.length = (A ++ B).length := (List.length_append A B).symm
    rw [this, List.take_left]
  rw [htake]
  have : A.length = (A).length := rfl
  rw [List.drop_left]

/-- **C3.** Brace-balanced extraction: when the raw text decomposes as
`pre ++ response_type ++ mid ++ "{" ++ inner ++ "}" ++ suffix`, where the
first occurrence of `response_type` ends `pre` (hypothesis `h1`), the
first `{` at-or-after that occurrence is the displayed one (hypothesis
`h2`), and `inner` is brace-balanced with no early zero-balance `}`
(hypothesis `h3`), `_get_string_to_be_signed` returns exactly the
substring from that `{` through the first `}` encountered at running
balance zero — the whole balanced group `{inner}` — so nested braces never
cause early termination. -/
theorem brace_balanced_extraction (pre rt mid inner suffix : List Char)
    (h1 : strFind (pre ++ rt ++ mid ++ '\x7b' :: inner ++ '\x7d' :: suffix) rt 0
      = (pre.length : Int))
    (h2 : strFind (pre ++ rt ++ mid ++ '\x7b' :: inner ++ '\x7d' :: suffix) ['\x7b']
        (pre.length : Int) = (((pre ++ rt ++ mid).length : Nat) : Int))
    (h3 : noEarlyClose inner 0 = true) :
    getStringToBeSigned (pre ++ rt ++ mid ++ '\x7b' :: inner ++ '\x7d' :: suffix) rt
      = '\x7b' :: inner ++ ['\x7d'] := by
  simp only [getStringToBeSigned, h1, h2]
  have ht : ((((pre ++ rt ++ mid).length : Nat) : Int) + 1).toNat
      = (pre ++ rt ++ mid).length + 1 := by omega
  rw [ht]
  have hassoc : pre ++ rt ++ mid ++ '\x7b' :: inner ++ '\x7d' :: suffix
      = (pre ++ rt ++ mid ++ ['\x7b']) ++ (inner ++ '\x7d' :: suffix) := by simp
  have hdrop : (pre ++ rt ++ mid ++ '\x7b' :: inner ++ '\x7d' :: suffix).drop
      ((pre ++ rt ++ mid).length + 1) = inner ++ '\x7d' :: suffix := by
    rw [hassoc]
    have hlen : (pre ++ rt ++ mid ++ ['\x7b']).length = (pre ++ rt ++ mid).length + 1 := by
      simp
      omega
    rw [← hlen, List.drop_left]
  rw [hdrop, scanEnd_append h3]
  have hseg : pre ++ rt ++ mid ++ '\x7b' :: inner ++ '\x7d' :: suffix
      = (pre ++ rt ++ mid) ++ ('\x7b' :: inner ++ ['\x7d']) ++ suffix := by simp
  have harith : ((pre ++ rt ++ mid).length + 1 + inner.length + 1 : Nat)
      = ((pre ++ rt ++ mid).length + ('\x7b' :: inner ++ ['\x7d']).length : Nat) := by
    simp
    omega
  rw [hseg, harith]
  exact pySlice_extract (pre ++ rt ++ mid) ('\x7b' :: inner ++ ['\x7d']) suffix

/-- Witness for C3 at the spec's own example: a text containing
`response_type":{"a":{"b":1},"c":2}` from which extraction returns
`{"a":{"b":1},"c":2}` despite the nested braces. -/
theorem brace_balanced_extraction_witness :
    getStringToBeSigned
      (("\x7b\"" : String).data ++ ("response_type" : String).data
        ++ ("\":" : String).data
        ++ '\x7b' :: ("\"a\":\x7b\"b\":1\x7d,\"c\":2" : String).data
        ++ '\x7d' :: ("\x7d" : String).data)
      ("response_type" : String).data
      = '\x7b' :: ("\"a\":\x7b\"b\":1\x7d,\"c\":2" : String).data ++ ['\x7d'] :=
  brace_balanced_extraction _ _ _ _ _ (by decide) (by decide) (by decide)

/-! ## The AliPay and WxPay verification operations -/

/-- The configuration fields of an `AliPay` instance that the `verify`
method reads (`pay_config.get` returns `None` for a missing option). -/
structure AliPayConfig where
  appid : Option String
  signType : Option String

/-- Python `==` between a dict value (possibly `None` for an absent key)
and a configuration value that is a `str` or `None`: `None == None` is
`True`, `str == str` compares contents, any cross-type comparison is
`False`. -/
def pyEqConf : PyObj → Option String → Bool
  | .str s, some t => s == t
  | .none, Option.none => true
  | _, _ => false

/-- `value in ["TRADE_SUCCESS", "TRADE_FINISHED"]`: Python membership by
`==`; only equal strings match (absent/`None`/other types do not). -/
def tradeAccepted : PyObj → Bool
  | .str s => s == "TRADE_SUCCESS" || s == "TRADE_FINISHED"
  | _ => false

/-- `AliPay._verify(raw_content, signature)`.  `b64` models
`base64.decodebytes` (it raises `binascii.Error` on malformed input —
hence the `Except`); `rsa` models the PKCS#1 v1.5 / SHA-256 verification
of the Cryptodome signer, a pure boolean predicate of the message text and
the decoded signature bytes.  Empty/falsy inputs short-circuit to `False`;
`decodebytes` of a non-str/bytes value raises `TypeError`. -/
def aliVerifyInner (b64 : String → Except String (List Nat))
    (rsa : String → List Nat → Bool) (rawContent : String) (signature : PyObj) :
    Except String Bool :=
  if rawContent.isEmpty then .ok false
  else if ¬ pyTruthy signature then .ok false
  else match signature with
    | .str s =>
      match b64 s with
      | .error e => .error e
      | .ok bs => .ok (rsa rawContent bs)
    | .bytes s =>
      match b64 s with
      | .error e => .error e
      | .ok bs => .ok (rsa rawContent bs)
    | _ => .error "TypeError"

/-- `AliPay.verify(data)`: pops `sign` and `sign_type` (mutating the
caller's dict — the second component is the dict after the call), gates on
the configured sign type / app id and on `trade_status`, then verifies the
canonical join of `_ordered_data` against the popped signature. -/
def aliVerifyS (b64 : String → Except String (List Nat))
    (rsa : String → List Nat → Bool) (cfg : AliPayConfig)
    (data : List (String × PyObj)) :
    Except String Bool × List (String × PyObj) :=
  let p1 := pyPop data "sign"
  let p2 := pyPop p1.2 "sign_type"
  if ¬ pyEqConf p2.1 cfg.signType ∨ ¬ pyEqConf (pyGetD p2.2 "auth_app_id") cfg.appid then
    (.ok false, p2.2)
  else if ¬ tradeAccepted (pyGetD p2.2 "trade_status") then (.ok false, p2.2)
  else match aliOrderedData p2.2 with
    | .error e => (.error e, p2.2)
    | .ok items => (aliVerifyInner b64 rsa (canonJoin items) p1.1, p2.2)

/-- Python `obj.get(k)` used on a value that is *expected* to be a dict:
on any non-dict (including `None`) the attribute access raises
`AttributeError`. -/
def pyDotGet : PyObj → String → Except String PyObj
  | .dict fields, k => .ok (pyGetD fields k)
  | _, _ => .error "AttributeError"

/-- `AliPay._verify_sync_response(raw_string, response_type)`.  The JSON
codec is an external collaborator: `parsed` is the outcome of
`json.loads(raw_string)` (`none` when parsing raised, in which case the
source's `except` branch substitutes `{}`).  The source then reads
`response.get('sign')` and `response.get(response_type)` (crashing on a
non-dict response), short-circuits on a falsy `sign`, reads
`result.get('trade_status')` (crashing when `result` is not a dict, e.g.
`None` for a missing key), gates on the accepted statuses, and verifies
the brace-extracted substring against `sign`. -/
def aliVerifySyncS (b64 : String → Except String (List Nat))
    (rsa : String → List Nat → Bool) (rawString : String)
    (parsed : Option PyObj) (responseType : String) : Except String Bool :=
  let response := parsed.getD (.dict [])
  match pyDotGet response "sign" with
  | .error e => .error e
  | .ok sign =>
    match pyDotGet response responseType with
    | .error e => .error e
    | .ok result =>
      if ¬ pyTruthy sign then .ok false
      else match pyDotGet result "trade_status" with
        | .error e => .error e
        | .ok ts =>
          if ¬ tradeAccepted ts then .ok false
          else aliVerifyInner b64 rsa (getStringToBeSignedS rawString responseType) sign

/-- Python `str.upper()` on the ASCII range (an HMAC hexdigest is ASCII
`[0-9a-f]`). -/
def pyUpper (s : String) : String :=
  String.mk (s.data.map Char.toUpper)

/-- `WxPay._sign(data)`: pops `key` (mutating the caller's dict), joins
the canonicalized pairs with `&`, appends `&key=<mch_key>`, and returns
the uppercased hexdigest of the HMAC-SHA256 oracle `hmac` (modelling
`hmac.new(key, msg, sha256).hexdigest()`, a pure function of the shared
secret and the message). -/
def wxSignS (hmac : String → String → String) (mchKey : String)
    (data : List (String × PyObj)) : String × List (String × PyObj) :=
  let p := pyPop data "key"
  let prefixSign := canonJoin (wxOrderedData p.2)
  let signedString := prefixSign ++ "&key=" ++ mchKey
  (pyUpper (hmac mchKey signedString), p.2)

/-- Python `==` between the popped `sign` value and the freshly computed
signature string: only a `str` can compare equal. -/
def pyEqStrB : PyObj → String → Bool
  | .str a, b => a == b
  | _, _ => false

/-- `WxPay.verify(data)`: pops `sign`, returns `False` when the remaining
dict is empty or the popped signature is falsy, otherwise compares the
signature with `_sign` of the remainder (which additionally pops `key`). -/
def wxVerifyS (hmac : String → String → String) (mchKey : String)
    (data : List (String × PyObj)) : Bool × List (String × PyObj) :=
  let p := pyPop data "sign"
  if p.2.isEmpty ∨ ¬ pyTruthy p.1 then (false, p.2)
  else
    let s := wxSignS hmac mchKey p.2
    (pyEqStrB p.1 s.1, s.2)

/-! ## `WxPay.dict_to_xml` -/

/-- The `isinstance(value, bytes)` decoding step of `dict_to_xml`: bytes
are decoded to text, every other value is left as is. -/
def xmlDecode : PyObj → PyObj
  | .bytes s => .str s
  | .str s => .str s
  | .int n => .int n
  | .bool b => .bool b
  | .none => .none
  | .dict fields => .dict fields
  | .list elems => .list elems

/-- The row-building loop of `dict_to_xml`: iterates the dict in its own
insertion order; a falsy value `break`s out of the whole loop; bytes are
decoded before formatting. -/
def dictToXmlRows : List (String × PyObj) → List String
  | [] => []
  | (k, v) :: rest =>
    if ¬ pyTruthy v then []
    else ("<" ++ k ++ ">" ++ pyStr (xmlDecode v) ++ "</" ++ k ++ ">") :: dictToXmlRows rest

/-- `WxPay.dict_to_xml(data)`. -/
def dictToXml (d : List (String × PyObj)) : String :=
  "<xml>" ++ String.join (dictToXmlRows d) ++ "</xml>"

/-! ## `security.encrypt_string` / `security.decrypt_string` -/

/-- Python `str.rjust(width)`: right-justify by padding on the *left*
with spaces (no-op when already at least `width` characters). -/
def pyRjust (width : Nat) (fill : Char) (s : List Char) : List Char :=
  List.replicate (width - s.length) fill ++ s

/-- The ASCII whitespace set of Python `bytes.strip()`. -/
def isPyWs (c : Char) : Bool :=
  c = ' ' ∨ c = '\t' ∨ c = '\n' ∨ c = '\r' ∨ c = '\x0b' ∨ c = '\x0c'

/-- Python `bytes.strip()`: remove leading *and* trailing whitespace. -/
def pyStripBytes (l : List Char) : List Char :=
  ((l.dropWhile isPyWs).reverse.dropWhile isPyWs).reverse

/-- `security.encrypt_string(encrypt_str, secret_key)`: `rjust(64)` (left
padding with spaces), UTF-8 encode, AES-ECB encrypt, base64 encode.  The
AES permutation `enc` (determined by the key) and `b64e` are the
Cryptodome/stdlib collaborators, modelled as functions on byte strings
(bytes carried as characters; UTF-8 framing is invisible to the
whitespace logic because multi-byte sequences contain no ASCII bytes). -/
def encrypt_string (enc : List Char → List Char) (b64e : List Char → List Char)
    (s : String) : String :=
  String.mk (b64e (enc (pyRjust 64 ' ' s.data)))

/-- `security.decrypt_string(decrypt_str, secret_key)`: base64 decode,
AES-ECB decrypt, `strip()`, decode. -/
def decrypt_string (dec : List Char → List Char) (b64d : List Char → List Char)
    (s : String) : String :=
  String.mk (pyStripBytes (dec (b64d s.data)))

/-! ## `pop` lemmas -/

theorem pyPop_fst (d : List (String × PyObj)) (k : String) :
    (pyPop d k).1 = pyGetD d k := by
  induction d with
  | nil => rfl
  | cons kv rest ih =>
    rw [pyPop, pyGetD, pyLookup]
    by_cases h : kv.1 = k
    · rw [if_pos h, if_pos h]
      rfl
    · rw [if_neg h, if_neg h]
      exact ih

theorem pyLookup_pop_ne {k' k : String} (h : k' ≠ k) (d : List (String × PyObj)) :
    pyLookup (pyPop d k).2 k' = pyLookup d k' := by
  induction d with
  | nil => rfl
  | cons kv rest ih =>
    rw [pyPop]
    by_cases hk : kv.1 = k
    · rw [if_pos hk, pyLookup, if_neg (fun he => h (he.symm.trans hk))]
    · rw [if_neg hk, pyLookup, pyLookup]
      by_cases hk' : kv.1 = k'
      · rw [if_pos hk', if_pos hk']
      · rw [if_neg hk', if_neg hk', ih]

theorem pyGetD_pop_ne {k' k : String} (h : k' ≠ k) (d : List (String × PyObj)) :
    pyGetD (pyPop d k).2 k' = pyGetD d k' := by
  rw [pyGetD, pyGetD, pyLookup_pop_ne h]

theorem pyPop_keys_sublist (d : List (String × PyObj)) (k : String) :
    ((pyPop d k).2.map Prod.fst).Sublist (d.map Prod.fst) := by
  induction d with
  | nil => exact List.Sublist.refl []
  | cons kv rest ih =>
    rw [pyPop]
    by_cases hk : kv.1 = k
    · rw [if_pos hk]
      exact (List.Sublist.refl _).cons _
    · rw [if_neg hk, List.map_cons, List.map_cons]
      exact ih.cons₂ _

theorem pyLookup_pop_self {d : List (String × PyObj)} {k : String}
    (hn : (d.map Prod.fst).Nodup) : pyLookup (pyPop d k).2 k = Option.none := by
  induction d with
  | nil => rfl
  | cons kv rest ih =>
    rw [List.map_cons, List.nodup_cons] at hn
    rw [pyPop]
    by_cases hk : kv.1 = k
    · rw [if_pos hk]
      exact pyLookup_eq_none_of_not_mem (fun hm => hn.1 (hk ▸ hm))
    · rw [if_neg hk, pyLookup, if_neg hk]
      exact ih hn.2

/-! ## Claim C4: verification is claimed never to raise -/

/-- **C4 (code bug).** The spec requires that verification never raises on
attacker-controlled input, but the code does: for the raw body
`{"sign": "x"}` (valid JSON with a truthy `sign` and no nested result
object), `response.get(response_type)` is `None` and
`result.get('trade_status')` raises `AttributeError` instead of returning
`False`.  Likewise `_verify` propagates the `binascii.Error` that
`base64.decodebytes` raises on a malformed signature (second conjunct; the
`b64` collaborator instance models `decodebytes` at such an input). -/
theorem verify_never_raises_failing_input :
    aliVerifySyncS (fun _ => .ok []) (fun _ _ => false)
        "\x7b\"sign\": \"x\"\x7d" (some (PyObj.dict [("sign", PyObj.str "x")]))
        "alipay_trade_query_response"
      = .error "AttributeError" ∧
    aliVerifyInner (fun _ => .error "binascii.Error") (fun _ _ => false)
        "message" (PyObj.str "%%%")
      = .error "binascii.Error" :=
  ⟨rfl, rfl⟩

/-! ## Claim C6: the trade-status gate -/

/-- **C6.** Verification of an asymmetric-gateway response returns `False`
whenever the nested result's `trade_status` is not one of exactly
`TRADE_SUCCESS` / `TRADE_FINISHED` — including when the key is absent
(`pyGetD` is then `None`, which `tradeAccepted` rejects) — and the
rejection is independent of the `b64`/`rsa` collaborators, i.e. it happens
before any signature computation is attempted.  Both entry points are
covered: `_verify_sync_response` (on a parsed response whose nested result
is a dict) and `AliPay.verify`. -/
theorem trade_status_gate
    (b64 : String → Except String (List Nat)) (rsa : String → List Nat → Bool)
    (raw rt : String) (resp resultFields : List (String × PyObj))
    (hres : pyLookup resp rt = some (PyObj.dict resultFields))
    (hts : tradeAccepted (pyGetD resultFields "trade_status") = false)
    (cfg : AliPayConfig) (data : List (String × PyObj))
    (hts' : tradeAccepted (pyGetD data "trade_status") = false) :
    aliVerifySyncS b64 rsa raw (some (PyObj.dict resp)) rt = .ok false ∧
    (aliVerifyS b64 rsa cfg data).1 = .ok false := by
  constructor
  · have hr : pyGetD resp rt = PyObj.dict resultFields := by
      rw [pyGetD, hres]
      rfl
    unfold aliVerifySyncS
    simp only [Option.getD, pyDotGet, hr]
    by_cases hsign : pyTruthy (pyGetD resp "sign") = true
    · rw [if_neg (by rw [hsign]; exact fun h => h rfl)]
      rw [if_pos (by rw [hts]; exact fun h => by cases h)]
    · rw [if_pos (by rw [Bool.not_eq_true] at hsign; rw [hsign]; exact fun h => by cases h)]
  · have htr : pyGetD (pyPop (pyPop data "sign").2 "sign_type").2 "trade_status"
        = pyGetD data "trade_status" := by
      rw [pyGetD_pop_ne (by decide), pyGetD_pop_ne (by decide)]
    unfold aliVerifyS
    by_cases hid : ¬ pyEqConf (pyPop (pyPop data "sign").2 "sign_type").1 cfg.signType = true
        ∨ ¬ pyEqConf (pyGetD (pyPop (pyPop data "sign").2 "sign_type").2 "auth_app_id")
            cfg.appid = true
    · rw [if_pos hid]
    · rw [if_neg hid, if_pos (by rw [htr, hts']; exact fun h => by cases h)]

/-- Witness for C6: a response and a callback mapping whose
`trade_status` is `TRADE_CLOSED` are rejected by both verifiers (with
collaborators that would accept any signature, showing the gate fires
first). -/
theorem trade_status_gate_witness :
    aliVerifySyncS (fun _ => .ok []) (fun _ _ => true) "raw"
        (some (PyObj.dict [("sign", PyObj.str "x"),
          ("r", PyObj.dict [("trade_status", PyObj.str "TRADE_CLOSED")])])) "r"
      = .ok false ∧
    (aliVerifyS (fun _ => .ok []) (fun _ _ => true)
        (AliPayConfig.mk Option.none Option.none)
        [("trade_status", PyObj.str "TRADE_CLOSED"), ("sign", PyObj.str "sig")]).1
      = .ok false :=
  trade_status_gate (fun _ => .ok []) (fun _ _ => true) "raw" "r"
    [("sign", PyObj.str "x"), ("r", PyObj.dict [("trade_status", PyObj.str "TRADE_CLOSED")])]
    [("trade_status", PyObj.str "TRADE_CLOSED")] rfl rfl
    (AliPayConfig.mk Option.none Option.none)
    [("trade_status", PyObj.str "TRADE_CLOSED"), ("sign", PyObj.str "sig")] rfl

/-! ## Claim C10: the identity gate in `AliPay.verify` -/

/-- **C10.** `AliPay.verify` returns `False` — for *every* `b64`/`rsa`
collaborator, i.e. without computing or checking any RSA signature —
whenever the supplied mapping's `sign_type` differs (by Python `==`) from
the configured sign type or its `auth_app_id` differs from the configured
app id (first conjunct); and when both identity checks pass and
`trade_status` is accepted, the result is exactly the RSA verification
stage applied to the canonical join of `_ordered_data` and the popped
signature (second conjunct) — so signature verification is attempted only
in that case. -/
theorem identity_gate (b64 : String → Except String (List Nat))
    (rsa : String → List Nat → Bool) (cfg : AliPayConfig)
    (data : List (String × PyObj)) :
    ((pyEqConf (pyGetD data "sign_type") cfg.signType = false ∨
      pyEqConf (pyGetD data "auth_app_id") cfg.appid = false) →
      (aliVerifyS b64 rsa cfg data).1 = .ok false) ∧
    (pyEqConf (pyGetD data "sign_type") cfg.signType = true →
     pyEqConf (pyGetD data "auth_app_id") cfg.appid = true →
     tradeAccepted (pyGetD data "trade_status") = true →
     (aliVerifyS b64 rsa cfg data).1
       = (match aliOrderedData (pyPop (pyPop data "sign").2 "sign_type").2 with
          | .error e => .error e
          | .ok items => aliVerifyInner b64 rsa (canonJoin items) (pyPop data "sign").1)) := by
  have hst : (pyPop (pyPop data "sign").2 "sign_type").1 = pyGetD data "sign_type" := by
    rw [pyPop_fst, pyGetD_pop_ne (by decide)]
  have haa : pyGetD (pyPop (pyPop data "sign").2 "sign_type").2 "auth_app_id"
      = pyGetD data "auth_app_id" := by
    rw [pyGetD_pop_ne (by decide), pyGetD_pop_ne (by decide)]
  have htr : pyGetD (pyPop (pyPop data "sign").2 "sign_type").2 "trade_status"
      = pyGetD data "trade_status" := by
    rw [pyGetD_pop_ne (by decide), pyGetD_pop_ne (by decide)]
  constructor
  · intro h
    unfold aliVerifyS
    rw [if_pos ?hcond]
    case hcond =>
      rcases h with h | h
      · exact Or.inl (by rw [hst, h]; exact fun hh => by cases hh)
      · exact Or.inr (by rw [haa, h]; exact fun hh => by cases hh)
  · intro h1 h2 h3
    unfold aliVerifyS
    rw [if_neg (by rw [hst, haa, h1, h2]; simp), if_neg (by rw [htr, h3]; simp)]
    cases aliOrderedData (pyPop (pyPop data "sign").2 "sign_type").2 with
    | error e => rfl
    | ok items => rfl

/-- Witness for C10: a mapping whose `sign_type` (`"MD5"`) differs from
the configured `"RSA2"` is rejected outright (first conjunct, with an
`rsa` collaborator that would accept anything); and for a mapping passing
all gates the result equals the RSA stage (second conjunct). -/
theorem identity_gate_witness :
    (aliVerifyS (fun _ => .ok []) (fun _ _ => true)
        (AliPayConfig.mk (some "app") (some "RSA2"))
        [("sign_type", PyObj.str "MD5"), ("auth_app_id", PyObj.str "app"),
          ("trade_status", PyObj.str "TRADE_SUCCESS"), ("sign", PyObj.str "sig")]).1
      = .ok false ∧
    (aliVerifyS (fun _ => .ok [7]) (fun _ _ => true)
        (AliPayConfig.mk (some "app") (some "RSA2"))
        [("sign_type", PyObj.str "RSA2"), ("auth_app_id", PyObj.str "app"),
          ("trade_status", PyObj.str "TRADE_SUCCESS"), ("sign", PyObj.str "sig")]).1
      = (match aliOrderedData
            (pyPop (pyPop [("sign_type", PyObj.str "RSA2"), ("auth_app_id", PyObj.str "app"),
              ("trade_status", PyObj.str "TRADE_SUCCESS"), ("sign", PyObj.str "sig")]
              "sign").2 "sign_type").2 with
         | .error e => .error e
         | .ok items =>
           aliVerifyInner (fun _ => .ok [7]) (fun _ _ => true) (canonJoin items)
             (pyPop [("sign_type", PyObj.str "RSA2"), ("auth_app_id", PyObj.str "app"),
               ("trade_status", PyObj.str "TRADE_SUCCESS"), ("sign", PyObj.str "sig")]
               "sign").1) :=
  ⟨(identity_gate (fun _ => .ok []) (fun _ _ => true)
      (AliPayConfig.mk (some "app") (some "RSA2"))
      [("sign_type", PyObj.str "MD5"), ("auth_app_id", PyObj.str "app"),
        ("trade_status", PyObj.str "TRADE_SUCCESS"), ("sign", PyObj.str "sig")]).1
    (Or.inl rfl),
   (identity_gate (fun _ => .ok [7]) (fun _ _ => true)
      (AliPayConfig.mk (some "app") (some "RSA2"))
      [("sign_type", PyObj.str "RSA2"), ("auth_app_id", PyObj.str "app"),
        ("trade_status", PyObj.str "TRADE_SUCCESS"), ("sign", PyObj.str "sig")]).2
    rfl rfl rfl⟩

/-! ## Claim C5: the symmetric signature and `WxPay.verify` -/

/-- **C5 (counterexample).** "`WxPay.verify` returns true if and only if
the supplied `sign` field equals the recomputed signature" is false: for
the mapping `{"sign": S}` whose remainder after removing `sign` is empty,
`verify` returns `False` because of its `if not data` guard even though
the supplied signature *does* equal the recomputed signature of the
remainder (here with an `hmac` collaborator returning hexdigest `"aa"`,
so the recomputed signature is `"AA"`, exactly the supplied value; the
same situation arises with the real HMAC at `S = HMAC(key, "&key=" +
key).hexdigest().upper()`). -/
theorem symmetric_sign_verify_counterexample :
    (wxVerifyS (fun _ _ => "aa") "k" [("sign", PyObj.str "AA")]).1 = false ∧
    (wxSignS (fun _ _ => "aa") "k" (pyPop [("sign", PyObj.str "AA")] "sign").2).1 = "AA" ∧
    pyEqStrB (PyObj.str "AA") "AA" = true :=
  ⟨rfl, rfl, rfl⟩

/-- **C5 (amended).** The signature formula holds as claimed: `_sign`
returns the uppercase hexdigest of the HMAC-SHA256 collaborator keyed by
the shared secret over the canonical join of the mapping (after removing
`key`) with `&key=<secret>` appended.  `verify`, however, returns true iff
the mapping after removing `sign` is *nonempty*, the popped `sign` value
is truthy, **and** it equals (as a string) the recomputed signature of the
remainder. -/
theorem symmetric_sign_verify_amended (hmac : String → String → String)
    (mchKey : String) (data : List (String × PyObj)) :
    (wxSignS hmac mchKey data).1
      = pyUpper (hmac mchKey
          (canonJoin (wxOrderedData (pyPop data "key").2) ++ "&key=" ++ mchKey)) ∧
    ((wxVerifyS hmac mchKey data).1 = true ↔
      ((pyPop data "sign").2 ≠ [] ∧ pyTruthy (pyPop data "sign").1 = true ∧
        pyEqStrB (pyPop data "sign").1
          (pyUpper (hmac mchKey
            (canonJoin (wxOrderedData (pyPop (pyPop data "sign").2 "key").2)
              ++ "&key=" ++ mchKey))) = true)) := by
  constructor
  · rfl
  · unfold wxVerifyS
    by_cases hcond : (pyPop data "sign").2.isEmpty ∨ ¬ pyTruthy (pyPop data "sign").1 = true
    · rw [if_pos hcond]
      refine ⟨fun h => (Bool.false_ne_true h).elim, fun h => ?_⟩
      exfalso
      rcases hcond with hc | hc
      · exact h.1 (List.isEmpty_iff.mp hc)
      · exact hc h.2.1
    · rw [if_neg hcond]
      rw [not_or, not_not] at hcond
      constructor
      · intro h
        exact ⟨fun he => hcond.1 (by rw [he]; rfl), hcond.2, h⟩
      · intro h
        exact h.2.2

/-! ## Claim C8: XML serialization order and early termination -/

theorem dictToXmlRows_break {k : String} {v : PyObj} {rest : List (String × PyObj)}
    (hv : pyTruthy v = false) (pre : List (String × PyObj)) :
    dictToXmlRows (pre ++ (k, v) :: rest) = dictToXmlRows pre := by
  induction pre with
  | nil =>
    rw [List.nil_append]
    simp only [dictToXmlRows]
    rw [if_pos (by rw [hv]; exact fun h => by cases h)]
  | cons kv' pre ih =>
    rw [List.cons_append]
    cases kv' with
    | mk k' v' =>
      simp only [dictToXmlRows]
      by_cases hv' : ¬ pyTruthy v' = true
      · rw [if_pos hv', if_pos hv']
      · rw [if_neg hv', if_neg hv', ih]

/-- **C8.** `WxPay.dict_to_xml` emits fields in the mapping's own
iteration order without re-sorting (second conjunct shows `b` before `a`),
and the *whole* loop stops at the first falsy value instead of skipping
it: `{"a": "x", "b": "", "c": "y"}` serializes to exactly
`<xml><a>x</a></xml>` with `"c"` omitted (first conjunct); in general any
entry with a falsy value truncates the serialization at that point (third
conjunct). -/
theorem xml_order_and_early_termination :
    dictToXml [("a", PyObj.str "x"), ("b", PyObj.str ""), ("c", PyObj.str "y")]
      = "<xml><a>x</a></xml>" ∧
    dictToXml [("b", PyObj.str "2"), ("a", PyObj.str "1")]
      = "<xml><b>2</b><a>1</a></xml>" ∧
    ∀ (pre : List (String × PyObj)) (k : String) (v : PyObj)
      (rest : List (String × PyObj)), pyTruthy v = false →
      dictToXml (pre ++ (k, v) :: rest) = dictToXml pre := by
  refine ⟨rfl, rfl, fun pre k v rest hv => ?_⟩
  rw [dictToXml, dictToXml, dictToXmlRows_break hv]

/-- Witness for C8's universally quantified early-termination clause at
the spec's example mapping. -/
theorem xml_order_and_early_termination_witness :
    dictToXml ([("a", PyObj.str "x")] ++ ("b", PyObj.str "") :: [("c", PyObj.str "y")])
      = dictToXml [("a", PyObj.str "x")] :=
  xml_order_and_early_termination.2.2 [("a", PyObj.str "x")] "b" (PyObj.str "")
    [("c", PyObj.str "y")] rfl

/-! ## Claim C9: the verify/sign operations mutate their input mapping -/

theorem aliVerifyS_snd (b64 : String → Except String (List Nat))
    (rsa : String → List Nat → Bool) (cfg : AliPayConfig)
    (data : List (String × PyObj)) :
    (aliVerifyS b64 rsa cfg data).2 = (pyPop (pyPop data "sign").2 "sign_type").2 := by
  unfold aliVerifyS
  dsimp only
  split
  · rfl
  · split
    · rfl
    · split <;> rfl

theorem wxSignS_snd (hmac : String → String → String) (mchKey : String)
    (data : List (String × PyObj)) :
    (wxSignS hmac mchKey data).2 = (pyPop data "key").2 := rfl

theorem wxVerifyS_snd (hmac : String → String → String) (mchKey : String)
    (data : List (String × PyObj)) :
    (wxVerifyS hmac mchKey data).2
      = if (pyPop data "sign").2.isEmpty ∨ ¬ pyTruthy (pyPop data "sign").1 = true
        then (pyPop data "sign").2
        else (pyPop (pyPop data "sign").2 "key").2 := by
  unfold wxVerifyS
  dsimp only
  split
  · rfl
  · rfl

/-- **C9 (counterexample).** The claim that verification leaves the
caller's mapping unchanged is false: `AliPay.verify` pops `sign` (and
`sign_type`) from the caller's dict, so after the call the mapping has
lost its `sign` entry. -/
theorem purity_counterexample :
    (aliVerifyS (fun _ => .ok []) (fun _ _ => false)
        (AliPayConfig.mk Option.none Option.none)
        [("sign", PyObj.str "s"), ("trade_status", PyObj.str "x")]).2
      = [("trade_status", PyObj.str "x")] ∧
    (aliVerifyS (fun _ => .ok []) (fun _ _ => false)
        (AliPayConfig.mk Option.none Option.none)
        [("sign", PyObj.str "s"), ("trade_status", PyObj.str "x")]).2
      ≠ [("sign", PyObj.str "s"), ("trade_status", PyObj.str "x")] := by
  constructor
  · rfl
  · intro h
    have hlen : (1 : Nat) = 2 := congrArg List.length h
    exact absurd hlen (by decide)

/-- **C9 (amended).** The operations are deterministic pure functions of
their inputs (immediate for the embedding), but they *do* mutate the
caller's mapping: `AliPay.verify` removes `sign` and `sign_type`,
`WxPay.verify` removes `sign` (and, when it reaches the signature
comparison, also `key` via `_sign`), and `WxPay._sign` removes `key`.
Every other association is left exactly as it was. -/
theorem sign_verify_frame (b64 : String → Except String (List Nat))
    (rsa : String → List Nat → Bool) (cfg : AliPayConfig)
    (hmac : String → String → String) (mchKey : String)
    (data : List (String × PyObj)) (hn : (data.map Prod.fst).Nodup) :
    (∀ k, k ≠ "sign" → k ≠ "sign_type" →
      pyLookup (aliVerifyS b64 rsa cfg data).2 k = pyLookup data k) ∧
    pyLookup (aliVerifyS b64 rsa cfg data).2 "sign" = Option.none ∧
    pyLookup (aliVerifyS b64 rsa cfg data).2 "sign_type" = Option.none ∧
    (∀ k, k ≠ "sign" → k ≠ "key" →
      pyLookup (wxVerifyS hmac mchKey data).2 k = pyLookup data k) ∧
    pyLookup (wxVerifyS hmac mchKey data).2 "sign" = Option.none ∧
    (∀ k, k ≠ "key" → pyLookup (wxSignS hmac mchKey data).2 k = pyLookup data k) ∧
    pyLookup (wxSignS hmac mchKey data).2 "key" = Option.none := by
  have hsnd := aliVerifyS_snd b64 rsa cfg data
  have hn1 : (((pyPop data "sign").2).map Prod.fst).Nodup :=
    hn.sublist (pyPop_keys_sublist data "sign")
  refine ⟨?_, ?_, ?_, ?_, ?_, ?_, ?_⟩
  · intro k hks hkt
    rw [hsnd, pyLookup_pop_ne hkt, pyLookup_pop_ne hks]
  · rw [hsnd, pyLookup_pop_ne (by decide), pyLookup_pop_self hn]
  · rw [hsnd, pyLookup_pop_self hn1]
  · intro k hks hkk
    rw [wxVerifyS_snd]
    split
    · rw [pyLookup_pop_ne hks]
    · rw [pyLookup_pop_ne hkk, pyLookup_pop_ne hks]
  · rw [wxVerifyS_snd]
    split
    · rw [pyLookup_pop_self hn]
    · rw [pyLookup_pop_ne (by decide), pyLookup_pop_self hn]
  · intro k hkk
    rw [wxSignS_snd, pyLookup_pop_ne hkk]
  · rw [wxSignS_snd, pyLookup_pop_self hn]

/-- Witness for the amended C9 at a concrete one-entry mapping. -/
theorem sign_verify_frame_witness :
    (∀ k, k ≠ "sign" → k ≠ "sign_type" →
      pyLookup (aliVerifyS (fun _ => .ok []) (fun _ _ => false)
        (AliPayConfig.mk Option.none Option.none) [("sign", PyObj.str "s")]).2 k
        = pyLookup [("sign", PyObj.str "s")] k) ∧
    pyLookup (aliVerifyS (fun _ => .ok []) (fun _ _ => false)
      (AliPayConfig.mk Option.none Option.none) [("sign", PyObj.str "s")]).2 "sign"
      = Option.none ∧
    pyLookup (aliVerifyS (fun _ => .ok []) (fun _ _ => false)
      (AliPayConfig.mk Option.none Option.none) [("sign", PyObj.str "s")]).2 "sign_type"
      = Option.none ∧
    (∀ k, k ≠ "sign" → k ≠ "key" →
      pyLookup (wxVerifyS (fun _ _ => "aa") "k" [("sign", PyObj.str "s")]).2 k
        = pyLookup [("sign", PyObj.str "s")] k) ∧
    pyLookup (wxVerifyS (fun _ _ => "aa") "k" [("sign", PyObj.str "s")]).2 "sign"
      = Option.none ∧
    (∀ k, k ≠ "key" →
      pyLookup (wxSignS (fun _ _ => "aa") "k" [("sign", PyObj.str "s")]).2 k
        = pyLookup [("sign", PyObj.str "s")] k) ∧
    pyLookup (wxSignS (fun _ _ => "aa") "k" [("sign", PyObj.str "s")]).2 "key"
      = Option.none :=
  sign_verify_frame (fun _ => .ok []) (fun _ _ => false)
    (AliPayConfig.mk Option.none Option.none) (fun _ _ => "aa") "k"
    [("sign", PyObj.str "s")] (by decide)

/-! ## Claim C7: the cipher round trip -/

theorem dropWhile_replicate_ws (n : Nat) (l : List Char) :
    (List.replicate n ' ' ++ l).dropWhile isPyWs = l.dropWhile isPyWs := by
  induction n with
  | zero => rfl
  | succ n ih =>
    rw [List.replicate_succ, List.cons_append, List.dropWhile_cons, if_pos (by decide), ih]

/-- Stripping undoes the `rjust` padding (which is all spaces). -/
theorem pyStripBytes_rjust (p : List Char) :
    pyStripBytes (pyRjust 64 ' ' p) = pyStripBytes p := by
  rw [pyRjust, pyStripBytes, pyStripBytes, dropWhile_replicate_ws]

/-- **C7 (counterexample).** The round trip fails for a plaintext with
leading (or trailing) whitespace: with the cipher and base64
collaborators instantiated to the identity (a legitimate instance of the
interface contract `dec ∘ enc = id`, `b64d ∘ b64e = id`), decrypting the
encryption of `" a"` yields `"a"`, because the `rjust(64)` padding is
added on the *left* and `decrypt_string`'s `strip()` removes leading and
trailing whitespace — including the plaintext's own. -/
theorem cipher_round_trip_counterexample :
    decrypt_string (fun x => x) (fun x => x)
        (encrypt_string (fun x => x) (fun x => x) " a") = "a" ∧
    (" a" : String) ≠ "a" := by
  constructor
  · rfl
  · decide

/-- **C7 (amended).** For every plaintext shorter than 64 characters
*that has no leading or trailing whitespace* (`strip` fixes it), and every
cipher/base64 collaborator pair satisfying the interface round-trip
contract (any valid key induces such a permutation pair),
`decrypt_string (encrypt_string p) = p`: encryption left-pads with spaces
to width 64 (Python `rjust`, i.e. right-justification — not right-padding
as the claim words it) and decryption strips the surrounding whitespace
back off. -/
theorem cipher_round_trip_amended
    (enc dec b64e b64d : List Char → List Char)
    (hcipher : ∀ x, dec (enc x) = x) (hb64 : ∀ x, b64d (b64e x) = x)
    (p : String) (hlen : p.length < 64) (hws : pyStripBytes p.data = p.data) :
    decrypt_string dec b64d (encrypt_string enc b64e p) = p := by
  rw [encrypt_string, decrypt_string]
  rw [show (String.mk (b64e (enc (pyRjust 64 ' ' p.data)))).data
      = b64e (enc (pyRjust 64 ' ' p.data)) from rfl]
  rw [hb64, hcipher, pyStripBytes_rjust, hws]

/-- Witness for the amended C7 at the plaintext `"ab"` with identity
collaborators. -/
theorem cipher_round_trip_amended_witness :
    decrypt_string (fun x => x) (fun x => x)
        (encrypt_string (fun x => x) (fun x => x) "ab") = "ab" :=
  cipher_round_trip_amended _ _ _ _ (fun _ => rfl) (fun _ => rfl) "ab"
    (by decide) (by decide)
